import Mathlib

/-!
Shallow embedding of `src/nf_core/subworkflows/install.py` (class `SubworkflowInstall`).

The class drives one subworkflow install: directory validation, lockfile
reconciliation, name verification, presence check, version resolution, optional
force-removal, file materialization, recursive installation of included
components, and the final lockfile update.

The collaborators that live outside `src/` (`ModulesJson`,
`nf_core.components.components_install`, `ModuleInstall`, `ModulesRepo`) are
modelled from the spec; each such definition carries a doc comment starting
with `Modelled from the spec:`.  Everything else is translated directly from
`install.py`.

State is a pair of an abstract filesystem (which subworkflow directories exist,
and at which content version) and the subworkflows section of the persisted
`modules.json` lockfile, both for the single configured remote of a run.
Observable steps are recorded in a trace of `Event`s so that ordering claims
can be stated.
-/

/-- One entry of the subworkflows section of `modules.json`: the installed
version (git sha) and the set of referrers (`installed_by`), kept as a
duplicate-free list. -/
structure Entry where
  version : String
  installed_by : List String
deriving DecidableEq

/-- The persisted state crossing recursive calls: the on-disk subworkflow
directories (name, content version) and the lockfile (subworkflows section of
`modules.json`), both association lists keyed by subworkflow name. -/
structure St where
  fs : List (String × String)
  lockfile : List (String × Entry)
deriving DecidableEq

/-- The mutable fields of the `SubworkflowInstall` object that the install
flow reads: `self.force`, `self.prompt`, `self.sha`, `self.installed_by`
(`install.py` lines 29-35).  Only `installed_by` is ever reassigned
(`install_included_components`, lines 199-202). -/
structure Self where
  force : Bool
  prompt : Bool
  sha : Option String
  installed_by : String
deriving DecidableEq

/-- The out-of-core collaborators, fixed for a run: project-dir validity
(`has_valid_directory`), `modules_repo.verify_sha`, name verification
(`collect_and_verify_name`), version resolution (`get_version`), file
materialization success (`install_component_files` / the registry), directory
removal success (`clear_component_dir`), the lines of a subworkflow's
`main.nf` at a given version, and whether a `nextflow.config` companion file
exists. -/
structure Env where
  validDir : Bool
  shaOk : Bool
  verifyName : String → Option String
  resolveVersion : String → Option String → Bool → Option String → Option String
  fetchOk : String → String → Bool
  clearOk : String → Bool
  mainNf : String → String → List String
  hasConfig : String → Bool

/-- Observable steps of one run, in order of occurrence. -/
inductive Event where
  | checkedPresence : Event
  | resolvedVersion : String → Event
  | clearedDir : String → Event
  | cleanedEntry : String → Event
  | materialized : String → String → Event
  | guidance : String → Bool → Event
  | moduleInstalled : String → Bool → Bool → Option String → String → Event
  | wroteEntry : String → String → String → Event
deriving DecidableEq

/-- Lookup in an association list keyed by `String`. -/
def alLookup {α : Type} : List (String × α) → String → Option α
  | [], _ => none
  | p :: rest, n => if p.1 = n then some p.2 else alLookup rest n

/-- Remove every binding of a key from an association list. -/
def alErase {α : Type} : List (String × α) → String → List (String × α)
  | [], _ => []
  | p :: rest, n => if p.1 = n then alErase rest n else p :: alErase rest n

/-- Record the on-disk presence of a subworkflow directory at a version. -/
def fsInsert (fs : List (String × String)) (n v : String) : List (String × String) :=
  (n, v) :: alErase fs n

/-- Modelled from the spec: `ModulesJson.check_up_to_date` (§4.1
`checkConsistency`, §3 Lockfile invariant) reconciles the lockfile with the
filesystem, dropping every entry whose files are absent from disk. -/
def reconcile (lf : List (String × Entry)) (fs : List (String × String)) :
    List (String × Entry) :=
  lf.filter (fun p => (alLookup fs p.1).isSome)

/-- Add referrers to a referrer set (a duplicate-free list), never removing
existing members (§3 InstalledEntry invariant). -/
def addRefs (refs : List String) : List String → List String
  | [] => refs
  | r :: rest => addRefs (if r ∈ refs then refs else refs ++ [r]) rest

/-- Modelled from the spec: `ModulesJson.update` / `update_subworkflow` (§4.1
`updateEntry`): adds `who` to the referrer set of the entry for `n` at
`version v`; if `track` (a referrer set salvaged from a removed entry) is
supplied its members are merged in too; creates the entry if absent; the
version is bumped to `v`.  The mutation is persisted at once (§4.1 side
effect). -/
def updateEntry (lf : List (String × Entry)) (n v who : String)
    (track : Option (List String)) : List (String × Entry) :=
  let extra := who :: track.getD []
  let refs :=
    match alLookup lf n with
    | some e => addRefs e.installed_by extra
    | none => addRefs [] extra
  (n, ⟨v, refs⟩) :: alErase lf n

/-- Modelled from the spec: `ModulesJson.get_subworkflow_version` (§4.1
`getVersion`): the currently recorded version, or `none` if never installed. -/
def get_subworkflow_version (lf : List (String × Entry)) (n : String) : Option String :=
  (alLookup lf n).map (fun e => e.version)

/-- Modelled from the spec: `components_install.clean_modules_json` (§4.5 step
6): removes the lockfile entry of `n` and returns its referrer set
(`installTrack`) so it can be merged back in after reinstall. -/
def clean_modules_json (lf : List (String × Entry)) (n : String) :
    List (String × Entry) × Option (List String) :=
  (alErase lf n, (alLookup lf n).map (fun e => e.installed_by))

/-- Modelled from the spec: `components_install.check_component_installed`
(§4.5 step 5): returns `false` (do not proceed with installation) exactly when
the component's files already exist on disk, a version is recorded for it, and
`force` is false; otherwise installation proceeds. -/
def check_component_installed (current : Option String) (present : Bool)
    (force : Bool) : Bool :=
  if current.isSome && present && !force then false else true

/-- `ComponentCommand.clear_component_dir` (called at `install.py` line 106;
the method body lives outside `src/`, so success or failure is supplied by the
environment per §4.4 `remove`): on success the directory tree is deleted, on
failure the filesystem is unchanged and `false` is returned. -/
def clear_component_dir (env : Env) (st : St) (n : String) : Bool × St :=
  if env.clearOk n then (true, { st with fs := alErase st.fs n }) else (false, st)

/-- `SubworkflowInstall.__init__` lines 32-35: the `installed_by` field is the
given option when truthy (a nonempty string), and otherwise the component-type
string `"subworkflows"` (Python falsy covers the default `False`, `None`, and
the empty string). -/
def initInstalledBy (installed_by : Option String) : String :=
  match installed_by with
  | some s => if s = "" then "subworkflows" else s
  | none => "subworkflows"

/-! ### The include-statement scanner

`get_modules_subworkflows_to_install` (`install.py` lines 172-191) matches each
line of the installed subworkflow's `main.nf` against the anchored regex

  include(?: *\x7b *)([a-zA-Z\_0-9]*)(?: *as *)?(?:[a-zA-Z\_0-9]*)?(?: *\x7d)(?: *from *)(?:squote|dquote)(.*)(?:squote|dquote)

via `re.match` (anchored at the start of the line, trailing text allowed).
`matchInclude` below is a faithful executable matcher for this one pattern,
with the regex's greedy/backtracking priorities: the symbol group is maximal
first and gives back characters only when the rest of the pattern cannot
match; the optional ` *as *` clause is preferred present; `(.*)` is greedy so
the captured path runs to the last quote character of the line.  Lines come
from Python file iteration; a line never contains an inner newline, so `.`
(which excludes newlines) matching is the same as plain-character matching
here. -/

/-- The regex character class `[a-zA-Z\_0-9]`. -/
def isWordChar (c : Char) : Bool := c.isAlpha || c.isDigit || c = '_'

/-- Left brace, right brace, single-quote and double-quote characters. -/
def lbraceChar : Char := Char.ofNat 123

def rbraceChar : Char := Char.ofNat 125

def squoteChar : Char := Char.ofNat 39

def dquoteChar : Char := Char.ofNat 34

/-- The regex alternative `(?:squote|dquote)`. -/
def isQuote (c : Char) : Bool := c = squoteChar || c = dquoteChar

/-- Consume the regex ` *` (zero or more literal spaces, greedy). -/
def dropSpaces : List Char → List Char
  | ' ' :: cs => dropSpaces cs
  | cs => cs

/-- Consume a maximal (greedy) run of word characters, returning it and the
rest. -/
def takeWord : List Char → List Char × List Char
  | [] => ([], [])
  | c :: cs =>
    if isWordChar c then
      ((c :: (takeWord cs).1), (takeWord cs).2)
    else ([], c :: cs)

/-- Consume one expected character. -/
def expectChar (c : Char) : List Char → Option (List Char)
  | d :: cs => if d = c then some cs else none
  | [] => none

/-- Consume an expected literal character sequence. -/
def expectStr : List Char → List Char → Option (List Char)
  | [], cs => some cs
  | l :: ls, c :: cs => if c = l then expectStr ls cs else none
  | _ :: _, [] => none

/-- Consume `(?:[a-zA-Z\_0-9]*)?(?: *\x7d)`: an optional word, spaces, and the
closing brace.  The optional word needs no backtracking: shortening it leaves
a word character in front of ` *\x7d`, which can never match. -/
def closeAfterWord (cs : List Char) : Option (List Char) :=
  expectChar rbraceChar (dropSpaces (takeWord cs).2)

/-- Consume `(?: *as *)?(?:[a-zA-Z\_0-9]*)?(?: *\x7d)` after the symbol group,
trying the optional `as` clause present first (the regex's priority for a
greedy optional group). -/
def afterSymbol (cs : List Char) : Option (List Char) :=
  match (expectStr ['a', 's'] (dropSpaces cs)).bind
      (fun r => closeAfterWord (dropSpaces r)) with
  | some tail => some tail
  | none => closeAfterWord cs

/-- Backtrack over the greedy symbol group `([a-zA-Z\_0-9]*)`: try the current
candidate (held reversed in the first argument), and on failure give one
character back to the input, exactly as the regex engine shortens a greedy
group.  Returns the captured symbol and the rest after the closing brace. -/
def tryG1 : List Char → List Char → Option (List Char × List Char)
  | [], rest =>
    match afterSymbol rest with
    | some tail => some ([], tail)
    | none => none
  | c :: g1rev, rest =>
    match afterSymbol rest with
    | some tail => some ((c :: g1rev).reverse, tail)
    | none => tryG1 g1rev (c :: rest)

/-- Python `s.startswith(p)`, as a character-list prefix test (kernel
computable, unlike core `String.startsWith`). -/
def strStartsWith (s p : String) : Bool :=
  (expectStr p.toList s.toList).isSome

/-- Python `str.lower` on one character.  The symbols this is applied to
consist of `[a-zA-Z\_0-9]` only (the regex character class), on which ASCII
lower-casing is exactly Python lower-casing. -/
def charLower (c : Char) : Char :=
  if 'A' ≤ c && c ≤ 'Z' then Char.ofNat (c.toNat + 32) else c

/-- Python `s.lower()` over the symbol characters. -/
def strLower (s : String) : String :=
  String.mk (s.toList.map charLower)

/-- Python `s.split("_")`: split into chunks at every underscore, keeping
empty chunks; the result is never empty. -/
def splitUnderscore : List Char → List (List Char)
  | [] => [[]]
  | c :: cs =>
    match splitUnderscore cs with
    | [] => [[]]
    | h :: t => if c = '_' then [] :: h :: t else (c :: h) :: t

/-- Python `"/".join(chunks)`. -/
def joinSlash : List (List Char) → List Char
  | [] => []
  | [w] => w
  | w :: ws => w ++ '/' :: joinSlash ws

/-- The module name derived from an included symbol:
Python `"/".join(name.lower().split("_"))`. -/
def moduleNameOf (name : String) : String :=
  String.mk (joinSlash (splitUnderscore (strLower name).toList))

/-- The prefix of `cs` before its last quote character: the greedy `(.*)`
followed by `(?:squote|dquote)`, with trailing text allowed by `re.match`.
`none` when no quote character remains. -/
def lastQuotePrefix (cs : List Char) : Option (List Char) :=
  match cs.reverse.dropWhile (fun c => !isQuote c) with
  | [] => none
  | _ :: r => some r.reverse

/-- Match one line against the include regex of
`get_modules_subworkflows_to_install`, returning the two capture groups
(symbol, quoted path), or `none` when the line does not match. -/
def matchInclude (line : String) : Option (String × String) :=
  match expectStr "include".toList line.toList with
  | none => none
  | some r1 =>
    match expectChar lbraceChar (dropSpaces r1) with
    | none => none
    | some r2 =>
      let w := takeWord (dropSpaces r2)
      match tryG1 w.1.reverse w.2 with
      | none => none
      | some sym =>
        match expectStr "from".toList (dropSpaces sym.2) with
        | none => none
        | some r4 =>
          match dropSpaces r4 with
          | [] => none
          | q :: r6 =>
            if isQuote q then
              match lastQuotePrefix r6 with
              | none => none
              | some g2 => some (String.mk sym.1, String.mk g2)
            else none

/-- `SubworkflowInstall.get_modules_subworkflows_to_install` (lines 172-191):
scan the lines of a subworkflow's `main.nf`; a matching line whose quoted path
starts with `../../../` contributes a module named by lower-casing the symbol
and joining its underscore-separated parts with `/`; otherwise a path starting
with `../` contributes a subworkflow named by lower-casing the symbol.  (The
`len(match.groups()) == 2` guard of the Python is always true for this
two-group regex.)  Results keep source order. -/
def get_modules_subworkflows_to_install : List String → List String × List String
  | [] => ([], [])
  | l :: rest =>
    let p := get_modules_subworkflows_to_install rest
    match matchInclude l with
    | some nl =>
      if strStartsWith nl.2 "../../../" then
        (moduleNameOf nl.1 :: p.1, p.2)
      else if strStartsWith nl.2 "../" then
        (p.1, strLower nl.1 :: p.2)
      else p
    | none => p

/-- Per-line module classification as the claim states it: a matching line
whose quoted path starts with `../../../` yields a module dependency named by
lower-casing the symbol and joining its underscore-separated parts with `/`. -/
def lineModule (l : String) : Option String :=
  match matchInclude l with
  | some nl =>
    if strStartsWith nl.2 "../../../" then some (moduleNameOf nl.1)
    else none
  | none => none

/-- Per-line subworkflow classification as the claim states it: a matching
line whose quoted path starts with `../` but not `../../../` yields a
subworkflow dependency named by lower-casing the symbol. -/
def lineSubworkflow (l : String) : Option String :=
  match matchInclude l with
  | some nl =>
    if !strStartsWith nl.2 "../../../" && strStartsWith nl.2 "../" then
      some (strLower nl.1)
    else none
  | none => none

/-! ### The recursive installer

`install` below is `SubworkflowInstall.install` (lines 37-134) with one level
of fuel per nested call; Python's unbounded recursion is reproduced up to the
supplied fuel (cyclic include graphs would not terminate in the Python
either).  The recursive callback is threaded explicitly so that
`install_included_components` (lines 193-213) is a standalone definition, as
in the source, and `self` is threaded through to reproduce the in-place
reassignment of `self.installed_by`.  A call returns the Python return value
(`True` / `False`), the `self` object, the persisted state, and the trace of
observable events. -/

/-- The type of the recursive install callback:
`self → state → subworkflow → silent → (result, self, state, trace)`. -/
abbrev InstallFn := Self → St → String → Bool → Bool × Self × St × List Event

/-- The lines of the installed subworkflow's `main.nf` as read from disk by
`get_modules_subworkflows_to_install` (line 178): determined by the directory
content version currently on disk. -/
def includedLines (env : Env) (st : St) (name : String) : List String :=
  match alLookup st.fs name with
  | some v => env.mainNf name v
  | none => []

/-- The module loop of `install_included_components` (lines 203-213): each
discovered module is delegated to a fresh `ModuleInstall` built with the same
`force`, `prompt` and `sha` and with `installed_by` set to the including
subworkflow's name, and installed silently.  `ModuleInstall`'s internals are
out of core scope (§4.5 step 9), so the delegation is recorded as an event
carrying its parameters. -/
def modEvents (self : Self) (parent : String) : List String → List Event
  | [] => []
  | m :: rest =>
    Event.moduleInstalled m self.force self.prompt self.sha parent :: modEvents self parent rest

/-- The subworkflow loop of `install_included_components` (lines 198-202):
for each discovered subworkflow, save `self.installed_by`, set it to the
including subworkflow's name, recurse silently, and restore the saved value. -/
def subLoop (f : InstallFn) (parent : String) :
    List String → Self → St → Self × St × List Event
  | [], self, st => (self, st, [])
  | s :: rest, self, st =>
    let original := self.installed_by
    let r := f { self with installed_by := parent } st s true
    let r2 := subLoop f parent rest { r.2.1 with installed_by := original } r.2.2.1
    (r2.1, r2.2.1, r.2.2.2 ++ r2.2.2)

/-- `SubworkflowInstall.install_included_components` (lines 193-213): read the
include statements of the freshly installed subworkflow's `main.nf`, recurse
into each included subworkflow, then delegate each included module. -/
def install_included_components (f : InstallFn) (env : Env) (self : Self)
    (st : St) (name : String) : Self × St × List Event :=
  let p := get_modules_subworkflows_to_install (includedLines env st name)
  let r := subLoop f name p.2 self st
  (r.1, r.2.1, r.2.2 ++ modEvents r.1 name p.1)

/-- The body of `SubworkflowInstall.install` (lines 37-134), with the
recursive callback `f` standing for the nested `self.install` calls:
1. `has_valid_directory` (line 42);
2. `ModulesJson.check_up_to_date` (line 47), modelled as reconciliation;
3. `modules_repo.verify_sha` (line 50);
4. `collect_and_verify_name` (line 54);
5. recorded version and presence check (lines 61-86): when the component is
   already installed and `force` is unset, add `self.installed_by` to the
   existing entry and return `False` (the branch implies the recorded version
   is present, so the `Option.getD` default is never reached);
6. `get_version` (lines 88-92);
7. force removal (lines 95-109): the result of `clear_component_dir` is
   discarded, as in the source, and `clean_modules_json` removes the entry,
   capturing its referrers as `install_track`;
8. `install_component_files` (line 115);
9. `install_included_components` (line 119);
10. the include-statement guidance when not silent (lines 121-129);
11. `update_subworkflow` (lines 132-133) and return `True`. -/
def installBody (f : InstallFn) (env : Env) (self : Self) (st : St)
    (name : String) (silent : Bool) : Bool × Self × St × List Event :=
  if !env.validDir then (false, self, st, []) else
  let st0 : St := { st with lockfile := reconcile st.lockfile st.fs }
  if !env.shaOk then (false, self, st0, []) else
  match env.verifyName name with
  | none => (false, self, st0, [])
  | some nm =>
    let current := get_subworkflow_version st0.lockfile nm
    let chk := check_component_installed current (alLookup st0.fs nm).isSome self.force
    if chk = false then
      (false, self,
       { st0 with lockfile := updateEntry st0.lockfile nm (current.getD "") self.installed_by none },
       [Event.checkedPresence, Event.wroteEntry nm (current.getD "") self.installed_by])
    else
      match env.resolveVersion nm self.sha self.prompt current with
      | none => (false, self, st0, [Event.checkedPresence])
      | some version =>
        let fr :=
          if self.force && chk then
            let stc := (clear_component_dir env st0 nm).2
            let cl := clean_modules_json stc.lockfile nm
            (cl.2, ({ stc with lockfile := cl.1 } : St),
             [Event.clearedDir nm, Event.cleanedEntry nm])
          else (none, st0, ([] : List Event))
        if !env.fetchOk nm version then
          (false, self, fr.2.1,
           Event.checkedPresence :: Event.resolvedVersion version :: fr.2.2)
        else
          let st2 : St := { fr.2.1 with fs := fsInsert fr.2.1.fs nm version }
          let r := install_included_components f env self st2 nm
          let g : List Event := if silent then [] else [Event.guidance nm (env.hasConfig nm)]
          (true, r.1,
           { r.2.1 with lockfile := updateEntry r.2.1.lockfile nm version r.1.installed_by fr.1 },
           Event.checkedPresence :: Event.resolvedVersion version ::
             (fr.2.2 ++ Event.materialized nm version :: (r.2.2 ++ g ++
               [Event.wroteEntry nm version r.1.installed_by])))

/-- `SubworkflowInstall.install`, with fuel bounding the recursion depth. -/
def install (fuel : Nat) (env : Env) : InstallFn :=
  match fuel with
  | 0 => fun self st _ _ => (false, self, st, [])
  | f + 1 => fun self st name silent => installBody (install f env) env self st name silent

/-- Whether a trace contains a user-facing guidance event. -/
def hasGuidance : List Event → Bool
  | [] => false
  | Event.guidance _ _ :: _ => true
  | _ :: rest => hasGuidance rest


/-! ### Concrete runs

Shared concrete environments and states used by the witness and
counterexample theorems below. -/

/-- A benign environment: valid directory, verification succeeds, every name
resolves to itself, every resolution yields version `"v2"`, fetch and removal
succeed, no include statements, no config file. -/
def envW : Env :=
  { validDir := true, shaOk := true, verifyName := fun n => some n,
    resolveVersion := fun _ _ _ _ => some "v2", fetchOk := fun _ _ => true,
    clearOk := fun _ => true, mainNf := fun _ _ => [], hasConfig := fun _ => false }

/-- `envW` with failing file materialization. -/
def envF : Env := { envW with fetchOk := fun _ _ => false }

/-- `envW` with failing directory removal. -/
def envC : Env := { envW with clearOk := fun _ => false }

/-- `envW` with an invalid project directory. -/
def envB : Env := { envW with validDir := false }

/-- `envW` where subworkflow `x`'s `main.nf` includes subworkflow `y`. -/
def envN : Env :=
  { envW with mainNf := fun n _ =>
      if n = "x" then ["include \x7b Y \x7d from \x22../y/main\x22"] else [] }

/-- A state where subworkflow `x` is installed at `"v1"` with referrers
`a` and `b`. -/
def stW : St := { fs := [("x", "v1")], lockfile := [("x", ⟨"v1", ["a", "b"]⟩)] }

/-- The empty state: nothing installed. -/
def stW0 : St := { fs := [], lockfile := [] }

/-- An installer without `force`, installing on behalf of `"me"`. -/
def selfW : Self := { force := false, prompt := false, sha := none, installed_by := "me" }

/-- An installer with `force`, installing on behalf of `"a"`. -/
def selfF : Self := { force := true, prompt := false, sha := none, installed_by := "a" }

/-- An installer built with a falsy `installed_by` constructor option. -/
def selfN : Self :=
  { force := false, prompt := false, sha := none, installed_by := initInstalledBy none }

/-! ### Helper lemmas -/

theorem addRefs_mem (extra : List String) : ∀ (refs : List String) (a : String),
    a ∈ addRefs refs extra ↔ a ∈ refs ∨ a ∈ extra := by
  induction extra with
  | nil => intro refs a; simp [addRefs]
  | cons r rest ih =>
    intro refs a
    by_cases h : r ∈ refs
    · simp only [addRefs, if_pos h, ih]
      constructor
      · rintro (ha | ha)
        · exact Or.inl ha
        · exact Or.inr (List.mem_cons_of_mem _ ha)
      · rintro (ha | ha)
        · exact Or.inl ha
        · rcases List.mem_cons.mp ha with rfl | ha
          · exact Or.inl h
          · exact Or.inr ha
    · simp only [addRefs, if_neg h, ih, List.mem_append, List.mem_singleton, List.mem_cons]
      tauto

theorem alLookup_alErase_self {α : Type} (l : List (String × α)) (n : String) :
    alLookup (alErase l n) n = none := by
  induction l with
  | nil => rfl
  | cons p rest ih =>
    by_cases h : p.1 = n
    · simp [alErase, h, ih]
    · simp [alErase, alLookup, h, ih]

theorem install_succ (fuel : Nat) (env : Env) (self : Self) (st : St)
    (name : String) (silent : Bool) :
    install (fuel + 1) env self st name silent
      = installBody (install fuel env) env self st name silent := rfl

theorem subLoop_installed_by (f : InstallFn) (parent : String) :
    ∀ (subs : List String) (self : Self) (st : St),
      (subLoop f parent subs self st).1.installed_by = self.installed_by := by
  intro subs
  induction subs with
  | nil => intro self st; rfl
  | cons s rest ih => intro self st; simp [subLoop, ih]

theorem iic_installed_by (f : InstallFn) (env : Env) (self : Self) (st : St)
    (name : String) :
    (install_included_components f env self st name).1.installed_by = self.installed_by := by
  simp [install_included_components, subLoop_installed_by]

theorem subLoop_self_id (f : InstallFn) (parent : String)
    (hf : ∀ (self : Self) (st : St) (n : String), (f self st n true).2.1 = self) :
    ∀ (subs : List String) (self : Self) (st : St),
      (subLoop f parent subs self st).1 = self := by
  intro subs
  induction subs with
  | nil => intro self st; rfl
  | cons s rest ih =>
    intro self st
    simp only [subLoop, ih, hf]

theorem modEvents_map (self : Self) (parent : String) : ∀ (ms : List String),
    modEvents self parent ms
      = ms.map (fun m => Event.moduleInstalled m self.force self.prompt self.sha parent) := by
  intro ms
  induction ms with
  | nil => rfl
  | cons m rest ih => simp [modEvents, ih]

theorem install_self_id : ∀ (fuel : Nat) (env : Env) (self : Self) (st : St)
    (n : String) (s : Bool), (install fuel env self st n s).2.1 = self := by
  intro fuel
  induction fuel with
  | zero => intro env self st n s; rfl
  | succ f ih =>
    intro env self st n s
    rw [install_succ]
    simp only [installBody]
    split
    · rfl
    split
    · rfl
    split
    · rfl
    split
    · rfl
    split
    · rfl
    split
    · rfl
    simp only [install_included_components]
    exact subLoop_self_id (install f env) _ (fun self st n => ih env self st n true) _ _ _

theorem iic_self_id (fuel : Nat) (env : Env) (self : Self) (st : St) (name : String) :
    (install_included_components (install fuel env) env self st name).1 = self := by
  simp only [install_included_components]
  exact subLoop_self_id (install fuel env) _
    (fun self st n => install_self_id fuel env self st n true) _ _ _

theorem hasGuidance_append (a b : List Event) :
    hasGuidance (a ++ b) = (hasGuidance a || hasGuidance b) := by
  induction a with
  | nil => simp [hasGuidance]
  | cons e rest ih => cases e <;> simp [hasGuidance, ih]

theorem modEvents_noGuidance (self : Self) (parent : String) (ms : List String) :
    hasGuidance (modEvents self parent ms) = false := by
  induction ms with
  | nil => rfl
  | cons m rest ih => simp [modEvents, hasGuidance, ih]

theorem subLoop_noGuidance (f : InstallFn) (parent : String)
    (hf : ∀ (self : Self) (st : St) (n : String), hasGuidance (f self st n true).2.2.2 = false) :
    ∀ (subs : List String) (self : Self) (st : St),
      hasGuidance (subLoop f parent subs self st).2.2 = false := by
  intro subs
  induction subs with
  | nil => intro self st; rfl
  | cons s rest ih => intro self st; simp [subLoop, hasGuidance_append, hf, ih]

theorem iic_noGuidance (f : InstallFn) (env : Env) (self : Self) (st : St) (name : String)
    (hf : ∀ (self : Self) (st : St) (n : String), hasGuidance (f self st n true).2.2.2 = false) :
    hasGuidance (install_included_components f env self st name).2.2 = false := by
  simp [install_included_components, hasGuidance_append, modEvents_noGuidance,
    subLoop_noGuidance f name hf]

theorem installBody_noGuidance (f : InstallFn) (env : Env) (self : Self) (st : St)
    (name : String)
    (hf : ∀ (self : Self) (st : St) (n : String), hasGuidance (f self st n true).2.2.2 = false) :
    hasGuidance (installBody f env self st name true).2.2.2 = false := by
  simp only [installBody]
  split
  · rfl
  split
  · rfl
  split
  · rfl
  split
  · simp [hasGuidance]
  split
  · simp [hasGuidance]
  split
  · split
    · simp [hasGuidance]
    · simp [hasGuidance]
  · simp only [hasGuidance, hasGuidance_append, List.append_nil,
      iic_noGuidance f env self _ _ hf]
    split
    · simp [hasGuidance, hasGuidance_append, iic_noGuidance f env self _ _ hf]
    · simp [hasGuidance, hasGuidance_append, iic_noGuidance f env self _ _ hf]

theorem install_silent_noGuidance : ∀ (fuel : Nat) (env : Env) (self : Self) (st : St)
    (name : String), hasGuidance (install fuel env self st name true).2.2.2 = false := by
  intro fuel
  induction fuel with
  | zero => intro env self st name; rfl
  | succ f ih =>
    intro env self st name
    rw [install_succ]
    exact installBody_noGuidance (install f env) env self st name
      (fun self st n => ih env self st n)

theorem alLookup_fsInsert_self (fs : List (String × String)) (n v : String) :
    alLookup (fsInsert fs n v) n = some v := by
  simp [fsInsert, alLookup]

theorem clear_component_dir_lockfile (env : Env) (st : St) (n : String) :
    ((clear_component_dir env st n).2).lockfile = st.lockfile := by
  simp only [clear_component_dir]
  split <;> rfl

theorem install_success_shape (fuel : Nat) (env : Env) (self : Self) (st : St)
    (name : String) (silent : Bool)
    (hsucc : (install (fuel + 1) env self st name silent).1 = true) :
    ∃ nm version pre track stMid,
      env.verifyName name = some nm
      ∧ alLookup stMid.fs nm = some version
      ∧ (install (fuel + 1) env self st name silent).2.2.2
          = Event.checkedPresence :: Event.resolvedVersion version :: pre
              ++ Event.materialized nm version
              :: ((install_included_components (install fuel env) env self stMid nm).2.2
                  ++ (if silent then [] else [Event.guidance nm (env.hasConfig nm)])
                  ++ [Event.wroteEntry nm version self.installed_by])
      ∧ (pre = [] ∨ pre = [Event.clearedDir nm, Event.cleanedEntry nm])
      ∧ ((install (fuel + 1) env self st name silent).2.2.1).lockfile
          = updateEntry
              ((install_included_components (install fuel env) env self stMid nm).2.1).lockfile
              nm version self.installed_by track := by
  cases hv : env.validDir
  · rw [install_succ] at hsucc; simp [installBody, hv] at hsucc
  cases hsh : env.shaOk
  · rw [install_succ] at hsucc; simp [installBody, hv, hsh] at hsucc
  cases hn : env.verifyName name with
  | none => rw [install_succ] at hsucc; simp [installBody, hv, hsh, hn] at hsucc
  | some nm =>
    cases hchk : check_component_installed
        (get_subworkflow_version (reconcile st.lockfile st.fs) nm)
        (alLookup st.fs nm).isSome self.force
    · rw [install_succ] at hsucc; simp [installBody, hv, hsh, hn, hchk] at hsucc
    cases hv2 : env.resolveVersion nm self.sha self.prompt
        (get_subworkflow_version (reconcile st.lockfile st.fs) nm) with
    | none => rw [install_succ] at hsucc; simp [installBody, hv, hsh, hn, hchk, hv2] at hsucc
    | some version =>
      cases hf : env.fetchOk nm version
      · rw [install_succ] at hsucc; simp [installBody, hv, hsh, hn, hchk, hv2, hf] at hsucc
      clear hsucc
      cases hforce : self.force
      all_goals rw [hforce] at hchk
      · refine ⟨nm, version, [], none,
          ⟨fsInsert st.fs nm version, reconcile st.lockfile st.fs⟩,
          rfl, alLookup_fsInsert_self _ _ _, ?_, Or.inl rfl, ?_⟩
        · rw [install_succ]
          simp [installBody, hv, hsh, hn, hchk, hv2, hf, hforce, iic_installed_by]
        · rw [install_succ]
          simp [installBody, hv, hsh, hn, hchk, hv2, hf, hforce, iic_installed_by]
      · refine ⟨nm, version, [Event.clearedDir nm, Event.cleanedEntry nm],
          (alLookup (reconcile st.lockfile st.fs) nm).map (fun e => e.installed_by),
          ⟨fsInsert (clear_component_dir env ⟨st.fs, reconcile st.lockfile st.fs⟩ nm).2.fs
              nm version,
            alErase (reconcile st.lockfile st.fs) nm⟩,
          rfl, alLookup_fsInsert_self _ _ _, ?_, Or.inr rfl, ?_⟩
        · rw [install_succ]
          simp [installBody, hv, hsh, hn, hchk, hv2, hf, hforce, iic_installed_by,
            clean_modules_json, clear_component_dir_lockfile]
        · rw [install_succ]
          simp [installBody, hv, hsh, hn, hchk, hv2, hf, hforce, iic_installed_by,
            clean_modules_json, clear_component_dir_lockfile]

/-! ### Claims -/

/-- C5: every line of a component's primary script file that matches the
inclusion pattern (a symbol bound from a quoted relative path) with a path
starting `../../../` contributes a module dependency named by lower-casing
the symbol and joining its underscore-separated parts with `/`; a matching
line whose path otherwise starts with `../` contributes a subworkflow
dependency named by lower-casing the symbol; all other lines contribute no
dependency. -/
theorem c5_dependency_classification (lines : List String) :
    get_modules_subworkflows_to_install lines
      = (lines.filterMap lineModule, lines.filterMap lineSubworkflow) := by
  induction lines with
  | nil => rfl
  | cons l rest ih =>
    simp only [get_modules_subworkflows_to_install, List.filterMap_cons, ih]
    cases h : matchInclude l with
    | none => simp [lineModule, lineSubworkflow, h]
    | some nl =>
      cases h3 : strStartsWith nl.2 "../../../"
      · cases h1 : strStartsWith nl.2 "../"
        · simp [lineModule, lineSubworkflow, h, h3, h1]
        · simp [lineModule, lineSubworkflow, h, h3, h1]
      · simp [lineModule, lineSubworkflow, h, h3]

/-- C10: after `install_included_components` returns, the installer's
`installed_by` field equals its value before the call, even though it is
temporarily reassigned to the current subworkflow's name around each
recursive subworkflow install. -/
theorem c10_installed_by_restored (fuel : Nat) (env : Env) (self : Self)
    (st : St) (name : String) :
    (install_included_components (install fuel env) env self st name).1.installed_by
      = self.installed_by :=
  iic_installed_by (install fuel env) env self st name

/-- C1 (amended): when the component is already installed (files on disk,
version recorded) and `force` is false, `install` performs no file
materialization, adds the caller's `installed_by` identity to the existing
entry's referrer set and persists it, and returns `False` — an outcome
distinct from the success-with-install outcome `True` but identical to the
failure outcome, which is also `False`. -/
theorem c1_already_installed (fuel : Nat) (env : Env) (self : Self) (st : St)
    (name nm : String) (e : Entry) (silent : Bool)
    (hv : env.validDir = true) (hsh : env.shaOk = true)
    (hn : env.verifyName name = some nm)
    (hlk : alLookup (reconcile st.lockfile st.fs) nm = some e)
    (hfs : (alLookup st.fs nm).isSome = true)
    (hforce : self.force = false) :
    install (fuel + 1) env self st name silent
      = (false, self,
         { fs := st.fs,
           lockfile := updateEntry (reconcile st.lockfile st.fs) nm e.version
             self.installed_by none },
         [Event.checkedPresence, Event.wroteEntry nm e.version self.installed_by])
    ∧ alLookup (updateEntry (reconcile st.lockfile st.fs) nm e.version
          self.installed_by none) nm
        = some ⟨e.version, addRefs e.installed_by [self.installed_by]⟩
    ∧ ∀ r, r ∈ addRefs e.installed_by [self.installed_by]
        ↔ (r ∈ e.installed_by ∨ r = self.installed_by) := by
  refine ⟨?_, ?_, ?_⟩
  · rw [install_succ]
    simp [installBody, hv, hsh, hn, check_component_installed,
      get_subworkflow_version, hlk, hfs, hforce]
  · simp [updateEntry, alLookup, hlk]
  · intro r
    simpa using addRefs_mem [self.installed_by] e.installed_by r

/-- C1 witness: a concrete already-installed no-force run. -/
theorem c1_already_installed_witness :
    install 1 envW selfW stW "x" false
      = (false, selfW,
         { fs := stW.fs,
           lockfile := updateEntry (reconcile stW.lockfile stW.fs) "x" "v1" "me" none },
         [Event.checkedPresence, Event.wroteEntry "x" "v1" "me"])
    ∧ alLookup (updateEntry (reconcile stW.lockfile stW.fs) "x" "v1" "me" none) "x"
        = some ⟨"v1", addRefs ["a", "b"] ["me"]⟩
    ∧ ∀ r, r ∈ addRefs ["a", "b"] ["me"] ↔ (r ∈ ["a", "b"] ∨ r = "me") :=
  c1_already_installed 0 envW selfW stW "x" "x" ⟨"v1", ["a", "b"]⟩ false
    rfl rfl rfl (by decide) (by decide) rfl

/-- C1 counterexample: an already-installed no-force install returns the same
`False` as a plainly failing install (here one against an invalid project
directory), so the no-op outcome is not distinct from the failure outcome;
the run does perform the referrer update and no materialization. -/
theorem c1_counterexample :
    (install 1 envW selfW stW "x" false).1 = false
    ∧ (install 1 envB selfW stW "x" false).1 = false
    ∧ (install 1 envW selfW stW "x" false).1 = (install 1 envB selfW stW "x" false).1
    ∧ Event.materialized "x" "v2" ∉ (install 1 envW selfW stW "x" false).2.2.2 := by
  decide

/-- C2: a force-reinstall of a component currently installed with referrer
set S captures S from the removed lockfile entry (`install_track`) and merges
it back into the recreated entry: the final entry is at the new version,
contains the caller's `installed_by` and every member of S; when the
reinstalled component has no discovered dependencies, the final referrer set
is exactly S together with the caller's `installed_by`. -/
theorem c2_force_preserves_referrers (fuel : Nat) (env : Env) (self : Self) (st : St)
    (name nm : String) (e : Entry) (version : String) (silent : Bool)
    (hv : env.validDir = true) (hsh : env.shaOk = true)
    (hn : env.verifyName name = some nm)
    (hlk : alLookup (reconcile st.lockfile st.fs) nm = some e)
    (hfs : (alLookup st.fs nm).isSome = true)
    (hforce : self.force = true)
    (hver : env.resolveVersion nm self.sha self.prompt
        (get_subworkflow_version (reconcile st.lockfile st.fs) nm) = some version)
    (hfetch : env.fetchOk nm version = true) :
    (install (fuel + 1) env self st name silent).1 = true
    ∧ ∃ e', alLookup ((install (fuel + 1) env self st name silent).2.2.1).lockfile nm
          = some e'
        ∧ e'.version = version
        ∧ self.installed_by ∈ e'.installed_by
        ∧ (∀ r, r ∈ e.installed_by → r ∈ e'.installed_by)
        ∧ (get_modules_subworkflows_to_install (env.mainNf nm version) = ([], []) →
            ∀ r, r ∈ e'.installed_by ↔ (r ∈ e.installed_by ∨ r = self.installed_by)) := by
  have hchk : check_component_installed
      (get_subworkflow_version (reconcile st.lockfile st.fs) nm)
      (alLookup st.fs nm).isSome true = true := by
    simp [check_component_installed]
  rw [install_succ]
  simp only [installBody, hv, hsh, hn, hforce, hchk, hver, hfetch,
    clear_component_dir_lockfile, clean_modules_json, hlk, Bool.not_true, Bool.not_false,
    Bool.true_and, Bool.false_eq_true, Bool.true_eq_false, if_false, if_true,
    Bool.true_and, Option.getD_some]
  refine ⟨trivial, ?_⟩
  rw [iic_installed_by]
  simp only [Option.map]
  set st2 : St :=
    { fs := fsInsert
        (clear_component_dir env { fs := st.fs, lockfile := reconcile st.lockfile st.fs }
          nm).2.fs nm version,
      lockfile := alErase (reconcile st.lockfile st.fs) nm } with hst2
  set L := (install_included_components (install fuel env) env self st2 nm).2.1.lockfile
    with hdefL
  have hLdeps : get_modules_subworkflows_to_install (env.mainNf nm version) = ([], []) →
      L = alErase (reconcile st.lockfile st.fs) nm := by
    intro hd
    rw [hdefL]
    simp [install_included_components, includedLines, hst2, alLookup_fsInsert_self, hd,
      subLoop, modEvents]
  cases halL : alLookup L nm with
  | none =>
    refine ⟨⟨version, addRefs [] (self.installed_by :: e.installed_by)⟩, ?_, rfl, ?_, ?_, ?_⟩
    · simp [updateEntry, halL, alLookup]
    · exact (addRefs_mem _ _ _).mpr (Or.inr (List.mem_cons_self _ _))
    · intro r hr
      exact (addRefs_mem _ _ _).mpr (Or.inr (List.mem_cons_of_mem _ hr))
    · intro _ r
      rw [addRefs_mem]
      simp only [List.not_mem_nil, false_or, List.mem_cons]
      tauto
  | some e2 =>
    refine ⟨⟨version, addRefs e2.installed_by (self.installed_by :: e.installed_by)⟩,
      ?_, rfl, ?_, ?_, ?_⟩
    · simp [updateEntry, halL, alLookup]
    · exact (addRefs_mem _ _ _).mpr (Or.inr (List.mem_cons_self _ _))
    · intro r hr
      exact (addRefs_mem _ _ _).mpr (Or.inr (List.mem_cons_of_mem _ hr))
    · intro hd
      rw [hLdeps hd, alLookup_alErase_self] at halL
      exact absurd halL (by simp)

/-- C3 (amended): when file materialization fails, `install` returns failure;
for non-force requests the lockfile is left at its reconciled value, but for
force requests the entry removed during the force step is not restored: the
failed request leaves the component's entry absent. -/
theorem c3_fetch_failure (fuel : Nat) (env : Env) (self : Self) (st : St)
    (name nm version : String) (silent : Bool)
    (hv : env.validDir = true) (hsh : env.shaOk = true)
    (hn : env.verifyName name = some nm)
    (hver : env.resolveVersion nm self.sha self.prompt
        (get_subworkflow_version (reconcile st.lockfile st.fs) nm) = some version)
    (hfetch : env.fetchOk nm version = false)
    (hpass : self.force = true ∨ (alLookup st.fs nm).isSome = false
        ∨ alLookup (reconcile st.lockfile st.fs) nm = none) :
    (install (fuel + 1) env self st name silent).1 = false
    ∧ (self.force = false →
        ((install (fuel + 1) env self st name silent).2.2.1).lockfile
          = reconcile st.lockfile st.fs)
    ∧ (self.force = true →
        alLookup ((install (fuel + 1) env self st name silent).2.2.1).lockfile nm
          = none) := by
  have hchk : check_component_installed
      (get_subworkflow_version (reconcile st.lockfile st.fs) nm)
      (alLookup st.fs nm).isSome self.force = true := by
    rcases hpass with h | h | h <;>
      simp [check_component_installed, get_subworkflow_version, h]
  cases hforce : self.force
  all_goals rw [hforce] at hchk
  · rw [install_succ]
    simp [installBody, hv, hsh, hn, hchk, hver, hfetch, hforce]
  · rw [install_succ]
    simp [installBody, hv, hsh, hn, hchk, hver, hfetch, hforce,
      clear_component_dir_lockfile, clean_modules_json, alLookup_alErase_self]

/-- C3 witness: a concrete non-force run with failing materialization. -/
theorem c3_fetch_failure_witness :
    (install 1 envF selfW stW0 "x" false).1 = false
    ∧ (selfW.force = false →
        ((install 1 envF selfW stW0 "x" false).2.2.1).lockfile
          = reconcile stW0.lockfile stW0.fs)
    ∧ (selfW.force = true →
        alLookup ((install 1 envF selfW stW0 "x" false).2.2.1).lockfile "x" = none) :=
  c3_fetch_failure 0 envF selfW stW0 "x" "x" "v2" false rfl rfl rfl rfl rfl
    (Or.inr (Or.inl (by decide)))

/-- C3 counterexample: with `force` set and materialization failing, the
request returns failure having removed the pre-existing lockfile entry of
`x`, which the claim forbids. -/
theorem c3_counterexample :
    alLookup stW.lockfile "x" = some ⟨"v1", ["a", "b"]⟩
    ∧ (install 1 envF selfF stW "x" false).1 = false
    ∧ alLookup ((install 1 envF selfF stW "x" false).2.2.1).lockfile "x" = none := by
  decide

/-- C4 (amended): when removal of the component's files fails during a
force-reinstall, the failure is ignored (the result of `clear_component_dir`
is discarded at line 106): the install continues to lockfile cleanup,
materialization and dependency installation, and recreates the entry at the
new version as in a successful force-reinstall. -/
theorem c4_removal_failure_ignored (fuel : Nat) (env : Env) (self : Self) (st : St)
    (name nm : String) (e : Entry) (version : String) (silent : Bool)
    (hv : env.validDir = true) (hsh : env.shaOk = true)
    (hn : env.verifyName name = some nm)
    (hlk : alLookup (reconcile st.lockfile st.fs) nm = some e)
    (hclear : env.clearOk nm = false)
    (hforce : self.force = true)
    (hver : env.resolveVersion nm self.sha self.prompt
        (get_subworkflow_version (reconcile st.lockfile st.fs) nm) = some version)
    (hfetch : env.fetchOk nm version = true) :
    (install (fuel + 1) env self st name silent).1 = true
    ∧ Event.materialized nm version ∈ (install (fuel + 1) env self st name silent).2.2.2
    ∧ Event.cleanedEntry nm ∈ (install (fuel + 1) env self st name silent).2.2.2
    ∧ ∃ e', alLookup ((install (fuel + 1) env self st name silent).2.2.1).lockfile nm
          = some e'
        ∧ e'.version = version := by
  have hchk : check_component_installed
      (get_subworkflow_version (reconcile st.lockfile st.fs) nm)
      (alLookup st.fs nm).isSome true = true := by
    simp [check_component_installed]
  rw [install_succ]
  simp only [installBody, hv, hsh, hn, hforce, hchk, hver, hfetch,
    clear_component_dir_lockfile, clean_modules_json, hlk, Bool.not_true, Bool.not_false,
    Bool.true_and, Bool.false_eq_true, Bool.true_eq_false, if_false, if_true,
    Option.getD_some]
  refine ⟨trivial, by simp, by simp, ?_⟩
  rw [iic_installed_by]
  cases halL : alLookup
      (install_included_components (install fuel env) env self
        { fs := fsInsert
            (clear_component_dir env { fs := st.fs, lockfile := reconcile st.lockfile st.fs }
              nm).2.fs nm version,
          lockfile := alErase (reconcile st.lockfile st.fs) nm } nm).2.1.lockfile nm with
  | none =>
    refine ⟨⟨version, addRefs [] (self.installed_by :: e.installed_by)⟩, ?_, rfl⟩
    simp [updateEntry, halL, alLookup]
  | some e2 =>
    refine ⟨⟨version, addRefs e2.installed_by (self.installed_by :: e.installed_by)⟩, ?_, rfl⟩
    simp [updateEntry, halL, alLookup]

/-- C2 witness: force-reinstalling `x` (installed with referrers `a`, `b`)
on behalf of `a` yields the entry at `v2` with referrers exactly `a`, `b`. -/
theorem c2_force_preserves_referrers_witness :
    (install 1 envW selfF stW "x" false).1 = true
    ∧ ∃ e', alLookup ((install 1 envW selfF stW "x" false).2.2.1).lockfile "x" = some e'
        ∧ e'.version = "v2"
        ∧ "a" ∈ e'.installed_by
        ∧ (∀ r, r ∈ (["a", "b"] : List String) → r ∈ e'.installed_by)
        ∧ (get_modules_subworkflows_to_install (envW.mainNf "x" "v2") = ([], []) →
            ∀ r, r ∈ e'.installed_by ↔ (r ∈ (["a", "b"] : List String) ∨ r = "a")) :=
  c2_force_preserves_referrers 0 envW selfF stW "x" "x" ⟨"v1", ["a", "b"]⟩ "v2" false
    rfl rfl rfl (by decide) (by decide) rfl rfl rfl

/-- C4 witness: a concrete force run whose removal fails yet completes. -/
theorem c4_removal_failure_ignored_witness :
    (install 1 envC selfF stW "x" false).1 = true
    ∧ Event.materialized "x" "v2" ∈ (install 1 envC selfF stW "x" false).2.2.2
    ∧ Event.cleanedEntry "x" ∈ (install 1 envC selfF stW "x" false).2.2.2
    ∧ ∃ e', alLookup ((install 1 envC selfF stW "x" false).2.2.1).lockfile "x" = some e'
        ∧ e'.version = "v2" :=
  c4_removal_failure_ignored 0 envC selfF stW "x" "x" ⟨"v1", ["a", "b"]⟩ "v2" false
    rfl rfl rfl (by decide) rfl rfl rfl rfl

/-- C4 counterexample: removal of `x`'s files fails, yet the install does
not abort — it materializes files and bumps the lockfile entry from `v1` to
`v2`, so the lockfile is not left at its pre-force state. -/
theorem c4_counterexample :
    envC.clearOk "x" = false
    ∧ alLookup stW.lockfile "x" = some ⟨"v1", ["a", "b"]⟩
    ∧ (install 1 envC selfF stW "x" false).1 = true
    ∧ Event.materialized "x" "v2" ∈ (install 1 envC selfF stW "x" false).2.2.2
    ∧ alLookup ((install 1 envC selfF stW "x" false).2.2.1).lockfile "x"
        = some ⟨"v2", ["a", "b"]⟩ := by
  decide

/-- The trace of one `install` call is either empty (an early failure) or
starts with the presence-check event. -/
theorem installBody_trace_head (f : InstallFn) (env : Env) (self : Self) (st : St)
    (name : String) (silent : Bool) :
    (installBody f env self st name silent).2.2.2 = []
    ∨ ∃ rest, (installBody f env self st name silent).2.2.2
        = Event.checkedPresence :: rest := by
  simp only [installBody]
  split
  · exact Or.inl rfl
  split
  · exact Or.inl rfl
  split
  · exact Or.inl rfl
  split
  · exact Or.inr ⟨_, rfl⟩
  split
  · exact Or.inr ⟨_, rfl⟩
  split
  · exact Or.inr ⟨_, rfl⟩
  · exact Or.inr ⟨_, rfl⟩

/-- C6 (amended): in every install request, the presence check that decides
the already-installed short-circuit happens before target-version resolution:
any trace containing a version-resolution event starts with the
presence-check event. -/
theorem c6_presence_before_resolution (fuel : Nat) (env : Env) (self : Self) (st : St)
    (name : String) (silent : Bool)
    (hvr : ∃ v, Event.resolvedVersion v ∈ (install fuel env self st name silent).2.2.2) :
    ∃ rest, (install fuel env self st name silent).2.2.2
        = Event.checkedPresence :: rest := by
  cases fuel with
  | zero => simp [install] at hvr
  | succ f =>
    rw [install_succ] at hvr ⊢
    rcases installBody_trace_head (install f env) env self st name silent with h | h
    · rw [h] at hvr
      simp at hvr
    · exact h

/-- C6 witness: a concrete fresh install that resolves a version. -/
theorem c6_presence_before_resolution_witness :
    ∃ rest, (install 1 envW selfW stW0 "x" true).2.2.2
        = Event.checkedPresence :: rest :=
  c6_presence_before_resolution 1 envW selfW stW0 "x" true ⟨"v2", by decide⟩

/-- C6 counterexample: in a concrete run the presence check (index 0)
precedes version resolution (index 1); no version-resolution event occurs
before the presence check, contradicting the claimed
VersionResolved-then-PresenceChecked order. -/
theorem c6_counterexample :
    (install 1 envW selfW stW0 "x" true).2.2.2
      = [Event.checkedPresence, Event.resolvedVersion "v2",
         Event.materialized "x" "v2", Event.wroteEntry "x" "v2" "me"]
    ∧ ¬ ∃ i : Fin 4, ∃ j : Fin 4, i.val < j.val
        ∧ [Event.checkedPresence, Event.resolvedVersion "v2",
           Event.materialized "x" "v2", Event.wroteEntry "x" "v2" "me"].get i
            = Event.resolvedVersion "v2"
        ∧ [Event.checkedPresence, Event.resolvedVersion "v2",
           Event.materialized "x" "v2", Event.wroteEntry "x" "v2" "me"].get j
            = Event.checkedPresence := by
  decide

/-- C7: every install request that materializes files does so before any
dependency recursion begins (the prefix of the trace before the
materialization event holds only presence-check, version-resolution and
force-removal events), and the whole dependency phase — the full trace of
`install_included_components`, nested recursions included — lies before the
parent's own lockfile entry write, which is the final trace event. -/
theorem c7_ordering (fuel : Nat) (env : Env) (self : Self) (st : St)
    (name : String) (silent : Bool)
    (hsucc : (install (fuel + 1) env self st name silent).1 = true) :
    ∃ nm version pre track stMid,
      env.verifyName name = some nm
      ∧ alLookup stMid.fs nm = some version
      ∧ (install (fuel + 1) env self st name silent).2.2.2
          = Event.checkedPresence :: Event.resolvedVersion version :: pre
              ++ Event.materialized nm version
              :: ((install_included_components (install fuel env) env self stMid nm).2.2
                  ++ (if silent then [] else [Event.guidance nm (env.hasConfig nm)])
                  ++ [Event.wroteEntry nm version self.installed_by])
      ∧ (pre = [] ∨ pre = [Event.clearedDir nm, Event.cleanedEntry nm])
      ∧ ((install (fuel + 1) env self st name silent).2.2.1).lockfile
          = updateEntry
              ((install_included_components (install fuel env) env self stMid nm).2.1).lockfile
              nm version self.installed_by track :=
  install_success_shape fuel env self st name silent hsucc

/-- C7 witness: the decomposition at a concrete successful run. -/
theorem c7_ordering_witness :
    ∃ nm version pre track stMid,
      envW.verifyName "x" = some nm
      ∧ alLookup stMid.fs nm = some version
      ∧ (install 1 envW selfW stW0 "x" false).2.2.2
          = Event.checkedPresence :: Event.resolvedVersion version :: pre
              ++ Event.materialized nm version
              :: ((install_included_components (install 0 envW) envW selfW stMid nm).2.2
                  ++ (if false then [] else [Event.guidance nm (envW.hasConfig nm)])
                  ++ [Event.wroteEntry nm version selfW.installed_by])
      ∧ (pre = [] ∨ pre = [Event.clearedDir nm, Event.cleanedEntry nm])
      ∧ ((install 1 envW selfW stW0 "x" false).2.2.1).lockfile
          = updateEntry
              ((install_included_components (install 0 envW) envW selfW stMid nm).2.1).lockfile
              nm version selfW.installed_by track :=
  c7_ordering 0 envW selfW stW0 "x" false (by decide)

/-- The last element of `l ++ [a]` is `a`. -/
theorem getLast?_snoc {α : Type} (l : List α) (a : α) : (l ++ [a]).getLast? = some a := by
  exact List.getLast?_concat _

/-- The last element of a successful install trace shape. -/
theorem getLast?_shape {α : Type} (x y m w : α) (A B G : List α) :
    (x :: y :: (A ++ m :: (B ++ G ++ [w]))).getLast? = some w := by
  have h : x :: y :: (A ++ m :: (B ++ G ++ [w]))
      = (x :: y :: (A ++ m :: (B ++ G))) ++ [w] := by simp
  rw [h, getLast?_snoc]

/-- When the last event of an install trace is a lockfile-entry write, its
referrer argument is the installer's own `installed_by` (the request's own
write: the short-circuit write or the final write; failure traces never end
in a write). -/
theorem install_last_write (fuel : Nat) (env : Env) (self : Self) (st : St)
    (name : String) (silent : Bool) (nm v who : String)
    (hlast : ((install fuel env self st name silent).2.2.2).getLast?
        = some (Event.wroteEntry nm v who)) :
    who = self.installed_by := by
  cases fuel with
  | zero => simp [install] at hlast
  | succ f =>
    rw [install_succ] at hlast
    simp only [installBody] at hlast
    split at hlast
    · simp at hlast
    split at hlast
    · simp at hlast
    split at hlast
    · simp at hlast
    split at hlast
    · simp [List.getLast?] at hlast
      exact hlast.2.2.symm
    split at hlast
    · simp [List.getLast?] at hlast
    split at hlast
    · split at hlast
      · simp [List.getLast?] at hlast
      · simp [List.getLast?] at hlast
    · dsimp only at hlast
      rw [getLast?_shape] at hlast
      simp only [Option.some.injEq, Event.wroteEntry.injEq] at hlast
      rcases hlast with ⟨-, -, h3⟩
      rw [iic_installed_by] at h3
      exact h3.symm

/-- C9 (amended): constructing the installer with an omitted or falsy
`installed_by` (Python `False` or the empty string) sets the field to the
component-type string `"subworkflows"`, and every lockfile update the
installer performs for the directly requested component (the write that ends
a request's trace) records `"subworkflows"`; updates performed for
recursively discovered dependencies record the parent subworkflow's name
instead (see the counterexample). -/
theorem c9_default_installed_by :
    initInstalledBy none = "subworkflows"
    ∧ initInstalledBy (some "") = "subworkflows"
    ∧ (∀ s, s ≠ "" → initInstalledBy (some s) = s)
    ∧ (∀ (fuel : Nat) (env : Env) (self : Self) (st : St) (name : String)
        (silent : Bool) (nm v who : String),
        self.installed_by = "subworkflows" →
        ((install fuel env self st name silent).2.2.2).getLast?
            = some (Event.wroteEntry nm v who) →
        who = "subworkflows") := by
  refine ⟨rfl, rfl, ?_, ?_⟩
  · intro s hs
    simp [initInstalledBy, hs]
  · intro fuel env self st name silent nm v who hself hlast
    rw [install_last_write fuel env self st name silent nm v who hlast, hself]

/-- C9 witness: a concrete run of an installer built with a falsy
`installed_by`: the top-level write records `"subworkflows"`. -/
theorem c9_default_installed_by_witness :
    (install 2 envN selfN stW0 "x" false).2.2.2.getLast?
        = some (Event.wroteEntry "x" "v2" "subworkflows")
    ∧ ∀ nm v who, ((install 2 envN selfN stW0 "x" false).2.2.2).getLast?
        = some (Event.wroteEntry nm v who) → who = "subworkflows" :=
  ⟨by decide,
   fun nm v who h =>
     c9_default_installed_by.2.2.2 2 envN selfN stW0 "x" false nm v who rfl h⟩

/-- C9 counterexample: with a falsy `installed_by`, installing `x` (which
includes subworkflow `y`) performs a lockfile update for `y` recording the
parent name `x`, not `"subworkflows"` — so not every update the installer
performs records `"subworkflows"`. -/
theorem c9_counterexample :
    selfN.installed_by = initInstalledBy none
    ∧ initInstalledBy none = "subworkflows"
    ∧ Event.wroteEntry "y" "v2" "x" ∈ (install 2 envN selfN stW0 "x" false).2.2.2
    ∧ "x" ≠ "subworkflows" := by
  decide

/-- C8: `install_included_components` installs each discovered subworkflow
dependency by recursing into the same orchestration silently with
`installed_by` set to the current component's name (the `subLoop`
definition), then delegates each module dependency with the same `force`,
`prompt` and `sha` and `installed_by` set to the current component's name;
the recursive (silent) calls never emit the include-statement guidance, while
a successful non-silent (top-level) install does. -/
theorem c8_dependency_dispatch (fuel : Nat) (env : Env) (self : Self) (st : St)
    (name : String) :
    (install_included_components (install fuel env) env self st name).2.2
      = (subLoop (install fuel env) name
          (get_modules_subworkflows_to_install (includedLines env st name)).2 self st).2.2
        ++ (get_modules_subworkflows_to_install (includedLines env st name)).1.map
            (fun m => Event.moduleInstalled m self.force self.prompt self.sha name)
    ∧ hasGuidance (subLoop (install fuel env) name
        (get_modules_subworkflows_to_install (includedLines env st name)).2 self st).2.2
        = false
    ∧ (∀ (self2 : Self) (st2 : St) (n : String),
        hasGuidance (install fuel env self2 st2 n true).2.2.2 = false)
    ∧ (∀ (silent : Bool), (install fuel env self st name silent).1 = true →
        silent = false →
        ∃ nm pre post, env.verifyName name = some nm
          ∧ (install fuel env self st name silent).2.2.2
              = pre ++ Event.guidance nm (env.hasConfig nm) :: post) := by
  have hself : (subLoop (install fuel env) name
      (get_modules_subworkflows_to_install (includedLines env st name)).2 self st).1 = self :=
    subLoop_self_id _ _ (fun a b c => install_self_id fuel env a b c true) _ _ _
  refine ⟨?_, ?_, ?_, ?_⟩
  · simp [install_included_components, hself, modEvents_map]
  · exact subLoop_noGuidance _ _ (fun a b c => install_silent_noGuidance fuel env a b c) _ _ _
  · exact fun a b c => install_silent_noGuidance fuel env a b c
  · intro silent hsucc hsil
    subst hsil
    cases fuel with
    | zero => simp [install] at hsucc
    | succ f =>
      obtain ⟨nm, version, pre, track, stMid, hn, -, htr, -, -⟩ :=
        install_success_shape f env self st name false hsucc
      refine ⟨nm,
        Event.checkedPresence :: Event.resolvedVersion version ::
          (pre ++ Event.materialized nm version
            :: (install_included_components (install f env) env self stMid nm).2.2),
        [Event.wroteEntry nm version self.installed_by], hn, ?_⟩
      rw [htr]
      simp

/-- C8 witness: the dispatch facts at a concrete run where `x` includes
subworkflow `y`. -/
theorem c8_dependency_dispatch_witness :
    (install_included_components (install 1 envN) envN selfN stW0 "x").2.2
      = (subLoop (install 1 envN) "x"
          (get_modules_subworkflows_to_install (includedLines envN stW0 "x")).2 selfN stW0).2.2
        ++ (get_modules_subworkflows_to_install (includedLines envN stW0 "x")).1.map
            (fun m => Event.moduleInstalled m selfN.force selfN.prompt selfN.sha "x")
    ∧ hasGuidance (install 1 envN selfN stW0 "y" true).2.2.2 = false
    ∧ ∃ nm pre post, envN.verifyName "x" = some nm
        ∧ (install 1 envN selfN stW0 "x" false).2.2.2
            = pre ++ Event.guidance nm (envN.hasConfig nm) :: post :=
  ⟨(c8_dependency_dispatch 1 envN selfN stW0 "x").1,
   (c8_dependency_dispatch 1 envN selfN stW0 "x").2.2.1 selfN stW0 "y",
   (c8_dependency_dispatch 1 envN selfN stW0 "x").2.2.2 false (by decide) rfl⟩
